import Mathlib

/-!
# Verification of the vision service registry and reconfigurable shim

A shallow embedding of the vision service package (`src/unnamed/part_000`):
the model registry operations, the vision service orchestrator methods, the
reconfigurable shim, resource resolution, and an interleaving model of the
shim's reader/writer lock.  Helper code of the repository that is not part of
the source sample (the `modelMap` helpers, the classification `TopN`
reduction, the parameter-schema table, the camera accessor) is modelled from
the specification; each such definition is marked `Modelled from the spec:`.
-/

namespace RDKVision

/-- Images are opaque inputs to detectors and classifiers. -/
abbrev Image := Nat

/-- Stand-in for the opaque `jsonschema.Schema` values held by the
parameter-schema table. -/
structure Schema where
  ref : String
deriving DecidableEq

/-- `VisModelType` is a string type-tag naming a kind of vision model
(source: `GetModelParameterSchema` takes a `VisModelType`). -/
abbrev VisModelType := String

/-- Modelled from the spec: the type tag of the companion segmenter built by
`AddDetector` (`string(DetectorSegmenter)` in the source; the constant's
string value lives outside the source sample and is never inspected). -/
def DetectorSegmenter : VisModelType := "detector_segmenter"

/-- The kind of a registered model: spec §3, `kind ∈ {Detector, Classifier,
Segmenter}`. -/
inductive VisModelKind where
  | detector
  | classifier
  | segmenter
deriving DecidableEq

/-- A value of a configuration attribute map. -/
inductive AttrValue where
  | str (s : String)
  | int (i : Int)
  | float (q : ℚ)
deriving DecidableEq

/-- `config.AttributeMap`: an open key-to-value map. -/
abbrev AttributeMap := List (String × AttrValue)

/-- `VisModelConfig`: `{name, type-tag, parameters}` (spec §6). -/
structure VisModelConfig where
  name : String
  type : String
  parameters : AttributeMap
deriving DecidableEq

/-- `Attributes` from the source: the list of model configs to register. -/
structure Attributes where
  ModelRegistry : List VisModelConfig
deriving DecidableEq

/-- A classification entry: a label with a confidence score (scores are
modelled as rationals; only their order matters). -/
structure Classification where
  label : String
  score : ℚ
deriving DecidableEq

/-- `classification.Classifications`: a list of classification entries. -/
abbrev Classifications := List Classification

/-- A resource subtype identity: (namespace, resource type, subtype name). -/
structure ResourceSubtype where
  resNamespace : String
  resType : String
  subtypeName : String
deriving DecidableEq

/-- `Subtype` for the vision service: `resource.NewSubtype(rdk, service,
vision)` (source lines 105-109). -/
def visionSubtype : ResourceSubtype :=
  ⟨"rdk", "service", "vision"⟩

/-- `resource.Name`: a (subtype, instance-name) pair, the universal lookup
key (spec §3). -/
structure ResourceName where
  subtype : ResourceSubtype
  name : String
deriving DecidableEq

/-- `Named` (source lines 113-115): the typed resource name of a named
vision service. -/
def Named (name : String) : ResourceName :=
  ⟨visionSubtype, name⟩

/-- The error taxonomy of spec §7, with the payloads the source attaches:
each constructor carries what the corresponding error message names. -/
inductive VisErr where
  | resourceNotFound (name : ResourceName)
  | unimplementedInterface (actualKind : String)
  | typeMismatch (actualKind : String)
  | modelNotFound (name : String)
  | schemaNotFound (modelType : String)
  | validationFailure (typeTag : String)
  | closeFailure (message : String)
deriving DecidableEq

/-- Modelled from the spec: a registered model (`registeredModel`, not in the
source sample).  Spec §3: a model is `{name, kind, configuration parameters,
executable adapter}`; the name is the registry key.  `classify` is the
executable adapter of classifier-kind models; `closeErr` is the outcome of
the release hook invoked on removal (spec §4.4): `none` means removal
succeeds, `some e` means the hook fails with `e` and the entry stays. -/
structure registeredModel where
  kind : VisModelKind
  parameters : AttributeMap
  classify : Option (Image → Except VisErr Classifications)
  closeErr : Option VisErr

/-- Modelled from the spec: `modelMap`, the mapping from model name to model
scoped to one service instance (spec §3); embedded as an association list
standing in for a Go map. -/
abbrev modelMap := List (String × registeredModel)

/-- Go map read `mm[name]`: the first binding of `name`. -/
def lookupModel : modelMap → String → Option registeredModel
  | [], _ => none
  | (k, m) :: rest, n => if k = n then some m else lookupModel rest n

/-- Go map delete `delete(mm, name)`: drops the binding of `name`. -/
def eraseModel : modelMap → String → modelMap
  | [], _ => []
  | (k, m) :: rest, n => if k = n then rest else (k, m) :: eraseModel rest n

/-- Go map write `mm[name] = m`: overwrites an existing binding, else
appends (re-adding an existing name overwrites, spec §9a as the source
behaves). -/
def insertModel : modelMap → String → registeredModel → modelMap
  | [], n, m => [(n, m)]
  | (k, m0) :: rest, n, m =>
    if k = n then (n, m) :: rest else (k, m0) :: insertModel rest n m

/-- `modelMap.modelNames`: all registered model names. -/
def modelNames (mm : modelMap) : List String :=
  mm.map Prod.fst

/-- `modelMap.DetectorNames`: names of the detector-kind models. -/
def DetectorNames (mm : modelMap) : List String :=
  (mm.filter fun p => decide (p.2.kind = VisModelKind.detector)).map Prod.fst

/-- `modelMap.ClassifierNames`: names of the classifier-kind models. -/
def ClassifierNames (mm : modelMap) : List String :=
  (mm.filter fun p => decide (p.2.kind = VisModelKind.classifier)).map Prod.fst

/-- `modelMap.SegmenterNames`: names of the segmenter-kind models. -/
def SegmenterNames (mm : modelMap) : List String :=
  (mm.filter fun p => decide (p.2.kind = VisModelKind.segmenter)).map Prod.fst

/-- Modelled from the spec: `modelMap.modelLookup` (not in the source
sample).  Spec §4.4: `Lookup(name) -> Model`, fails with `NotFound` if
absent. -/
def modelLookup (mm : modelMap) (name : String) : Except VisErr registeredModel :=
  match lookupModel mm name with
  | none => .error (.modelNotFound name)
  | some m => .ok m

/-- Modelled from the spec: `modelMap.removeVisModel` (not in the source
sample).  Spec §4.4 / §3: deletes the entry, invoking the release hook; a
hook failure is returned and the entry stays.  Absence of the named model is
not an error (spec §3: "absence of the derived entity is not an error for
the detector's removal" — `RemoveDetector` delegates here unconditionally,
so the removal helper itself must tolerate absence). -/
def removeVisModel (mm : modelMap) (name : String) : modelMap × Option VisErr :=
  match lookupModel mm name with
  | none => (mm, none)
  | some m =>
    match m.closeErr with
    | some e => (mm, some e)
    | none => (eraseModel mm name, none)

/-- Modelled from the spec: the process-wide model factory table keyed by
type-tag (spec §4.4: `RegisterModels` "looks up a process-wide factory keyed
by `type-tag`"). -/
abbrev ModelFactories := String → Option (VisModelConfig → Except VisErr registeredModel)

/-- Modelled from the spec: the loop of `registerNewVisModels` (not in the
source sample).  Spec §4.4: for each config in order, look up the factory by
type-tag; an unknown tag fails with `ValidationFailure` naming the tag;
otherwise construct the model and insert it.  Not transactional: a failure
partway through leaves earlier models registered. -/
def registerVisModelsLoop (fac : ModelFactories) : modelMap → List VisModelConfig → modelMap × Option VisErr
  | mm, [] => (mm, none)
  | mm, cfg :: rest =>
    match fac cfg.type with
    | none => (mm, some (.validationFailure cfg.type))
    | some build =>
      match build cfg with
      | .error e => (mm, some e)
      | .ok m => registerVisModelsLoop fac (insertModel mm cfg.name m) rest

/-- Modelled from the spec: `registerNewVisModels` (not in the source
sample); registers every config of the attributes in order. -/
def registerNewVisModels (fac : ModelFactories) (mm : modelMap) (attrs : Attributes) : modelMap × Option VisErr :=
  registerVisModelsLoop fac mm attrs.ModelRegistry

/-- Modelled from the spec: `registeredModel.toClassifier` (not in the
source sample).  Spec §4.4: type-directed adapter; fails with `TypeMismatch`
when the model is not a classifier. -/
def registeredModel.toClassifier (m : registeredModel) : Except VisErr (Image → Except VisErr Classifications) :=
  match m.classify with
  | some f => .ok f
  | none => .error (.typeMismatch "registered model is not a classifier")

/-- Descending order on classification scores. -/
def byScoreDesc (a b : Classification) : Prop :=
  b.score ≤ a.score

instance : DecidableRel byScoreDesc :=
  fun a b => inferInstanceAs (Decidable (b.score ≤ a.score))

instance : IsTotal Classification byScoreDesc :=
  ⟨fun a b => le_total b.score a.score⟩

instance : IsTrans Classification byScoreDesc :=
  ⟨fun _ _ _ h1 h2 => le_trans h2 h1⟩

/-- Modelled from the spec: `Classifications.TopN` from the classification
package (not in the source sample).  Spec §4.5: "reduces a full ranked
classification output to the top-N entries by descending confidence; result
length is `min(N, available)`"; ties are broken stably (spec §9c leaves the
tie-break to the implementer). -/
def TopN (cc : Classifications) (n : Nat) : Except VisErr Classifications :=
  .ok ((cc.insertionSort byScoreDesc).take n)

/-- The schema table `RegisteredModelParameterSchemas` (its contents are not
in the source sample): a Go map from type-tag to a *pointer* to a schema,
hence the two `Option` levels — absent key, nil pointer, or schema. -/
abbrev SchemaTable := VisModelType → Option (Option Schema)

/-- `visionService.GetModelParameterSchema` (source lines 178-186): a
present non-nil schema is returned; a nil entry or an absent key fails with
an error naming the missing type-tag. -/
def GetModelParameterSchema (table : SchemaTable) (modelType : VisModelType) : Except VisErr Schema :=
  match table modelType with
  | some (some s) => .ok s
  | some none => .error (.schemaNotFound modelType)
  | none => .error (.schemaNotFound modelType)

/-- `visionService.AddSegmenter` (source lines 360-365): registers the one
config. -/
def AddSegmenter (fac : ModelFactories) (mm : modelMap) (cfg : VisModelConfig) : modelMap × Option VisErr :=
  registerNewVisModels fac mm ⟨[cfg]⟩

/-- The companion segmenter config built by `AddDetector` (source lines
206-210). -/
def detectorSegmenterConfig (detectorName : String) : VisModelConfig :=
  ⟨detectorName ++ "_segmenter", DetectorSegmenter,
    [("detector_name", AttrValue.str detectorName),
     ("mean_k", AttrValue.int 0),
     ("sigma", AttrValue.float 0)]⟩

/-- `visionService.AddDetector` (source lines 197-212): registers the
detector config, then automatically adds the companion segmenter named
`cfg.name ++ "_segmenter"`; the secondary result is returned. -/
def AddDetector (fac : ModelFactories) (mm : modelMap) (cfg : VisModelConfig) : modelMap × Option VisErr :=
  match registerNewVisModels fac mm ⟨[cfg]⟩ with
  | (mm1, some e) => (mm1, some e)
  | (mm1, none) => AddSegmenter fac mm1 (detectorSegmenterConfig cfg.name)

/-- `visionService.AddClassifier` (source lines 277-286): registers the one
config. -/
def AddClassifier (fac : ModelFactories) (mm : modelMap) (cfg : VisModelConfig) : modelMap × Option VisErr :=
  match registerNewVisModels fac mm ⟨[cfg]⟩ with
  | (mm1, some e) => (mm1, some e)
  | (mm1, none) => (mm1, none)

/-- `visionService.RemoveSegmenter` (source lines 368-372). -/
def RemoveSegmenter (mm : modelMap) (segmenterName : String) : modelMap × Option VisErr :=
  removeVisModel mm segmenterName

/-- `visionService.RemoveDetector` (source lines 215-224): removes the
detector, then removes the associated segmenter named
`detectorName ++ "_segmenter"` as well. -/
def RemoveDetector (mm : modelMap) (detectorName : String) : modelMap × Option VisErr :=
  match removeVisModel mm detectorName with
  | (mm1, some e) => (mm1, some e)
  | (mm1, none) => RemoveSegmenter mm1 (detectorName ++ "_segmenter")

/-- `visionService.RemoveClassifier` (source lines 289-297): removes the
named model from the registry. -/
def RemoveClassifier (mm : modelMap) (classifierName : String) : modelMap × Option VisErr :=
  match removeVisModel mm classifierName with
  | (mm1, some e) => (mm1, some e)
  | (mm1, none) => (mm1, none)

/-- `visionService.GetClassifications` (source lines 330-349): model lookup,
classifier adapter, run the classifier, top-N reduction. -/
def GetClassifications (mm : modelMap) (img : Image) (classifierName : String) (n : Nat) : Except VisErr Classifications :=
  match modelLookup mm classifierName with
  | .error e => .error e
  | .ok c =>
    match c.toClassifier with
    | .error e => .error e
    | .ok classifier =>
      match classifier img with
      | .error e => .error e
      | .ok fullClassifications => TopN fullClassifications n

/-- Modelled from the spec: the upstream camera source (spec §4.5; the
camera package is not in the source sample).  A camera, once resolved,
yields one image or an upstream failure. -/
structure CameraModel where
  readImage : Except VisErr Image

/-- The externally supplied set of cameras, looked up by name. -/
abbrev Cameras := String → Option CameraModel

/-- Modelled from the spec: `camera.FromRobot` (spec §4.2 / §4.5: resolve
the upstream source by name, failing `NotFound` when absent). -/
def cameraFromRobot (cams : Cameras) (name : String) : Except VisErr CameraModel :=
  match cams name with
  | none => .error (.resourceNotFound ⟨⟨"rdk", "component", "camera"⟩, name⟩)
  | some cam => .ok cam

/-- `visionService.GetClassificationsFromCamera` (source lines 300-327):
camera resolution, model lookup, classifier adapter, one image read, run the
classifier, top-N reduction — in the source's order. -/
def GetClassificationsFromCamera (cams : Cameras) (mm : modelMap) (cameraName classifierName : String) (n : Nat) : Except VisErr Classifications :=
  match cameraFromRobot cams cameraName with
  | .error e => .error e
  | .ok cam =>
    match modelLookup mm classifierName with
    | .error e => .error e
    | .ok c =>
      match c.toClassifier with
      | .error e => .error e
      | .ok classifier =>
        match cam.readImage with
        | .error e => .error e
        | .ok img =>
          match classifier img with
          | .error e => .error e
          | .ok fullClassifications => TopN fullClassifications n

/-- The loop of `visionService.Close` (source lines 398-407): remove each
named model in turn, stopping at the first failure. -/
def closeLoop : modelMap → List String → modelMap × Option VisErr
  | mm, [] => (mm, none)
  | mm, n :: rest =>
    match removeVisModel mm n with
    | (mm1, some e) => (mm1, some e)
    | (mm1, none) => closeLoop mm1 rest

/-- `visionService.Close` (source lines 398-407): iterates over a snapshot
of all registered model names, removing each; the first failure is
returned. -/
def Close (mm : modelMap) : modelMap × Option VisErr :=
  closeLoop mm (modelNames mm)

/-- `visionService` (source lines 171-175): its registry state. -/
structure visionService where
  modReg : modelMap

/-- `reconfigurableVision` (source lines 409-412): holds one actual
service.  The lock itself is modelled separately as an interleaving system
(`ShimStep`). -/
structure reconfigurableVision where
  actual : visionService

/-- The `resource.Reconfigurable` argument of `Reconfigure`: either a
vision shim or a value of some other concrete kind (the runtime type
assertion's two outcomes). -/
inductive Reconfigurable where
  | vision (svc : reconfigurableVision)
  | other (kind : String)

/-- `reconfigurableVision.Reconfigure` (source lines 519-536): a wrong shim
kind fails with the type-mismatch error and leaves the actual in place;
otherwise the old actual is closed — a close failure is logged, never
returned — and the new actual is installed. -/
def Reconfigure (svc : reconfigurableVision) (newSvc : Reconfigurable) : reconfigurableVision × Option VisErr :=
  match newSvc with
  | .other k => (svc, some (.typeMismatch k))
  | .vision rSvc =>
    let _closeResult := Close svc.actual.modReg
    (⟨rSvc.actual⟩, none)

/-- An `interface{}` argument of `WrapWithReconfigurable`: a raw vision
service, an already-wrapped shim (which also satisfies `Service`, source
line 88), or a value of some other kind that does not satisfy `Service`. -/
inductive IfaceVal where
  | service (s : visionService)
  | reconf (w : reconfigurableVision)
  | nonService (kind : String)

/-- `WrapWithReconfigurable` (source lines 539-550): a non-`Service` fails
with `UnimplementedInterface`; an existing shim is returned unchanged;
otherwise the service is wrapped. -/
def WrapWithReconfigurable : IfaceVal → Except VisErr reconfigurableVision
  | .nonService k => .error (.unimplementedInterface k)
  | .reconf w => .ok w
  | .service s => .ok ⟨s⟩

/-- `reconfigurableVision.RemoveClassifier` (source lines 463-467): the
delegated call invokes `svc.actual.RemoveDetector` with the classifier
name. -/
def reconfigurableRemoveClassifier (svc : reconfigurableVision) (classifierName : String) : reconfigurableVision × Option VisErr :=
  let r := RemoveDetector svc.actual.modReg classifierName
  (⟨⟨r.1⟩⟩, r.2)

/-- A resource held by the robot's resource set: a vision service, a vision
shim (both satisfy the `Service` interface), or a resource of some other
concrete kind. -/
inductive RobotResource where
  | visionSvc (s : visionService)
  | reconfVision (w : reconfigurableVision)
  | other (kind : String)

/-- The externally supplied resource set: resource names to resources. -/
abbrev Robot := List (ResourceName × RobotResource)

/-- `robot.ResourceByName`: lookup by resource name. -/
def resourceByName : Robot → ResourceName → Option RobotResource
  | [], _ => none
  | (rn, res) :: rest, q => if rn = q then some res else resourceByName rest q

/-- `FromRobot` (source lines 118-128): resolve `Named name`; an absent
resource fails with `NotFound` on `Named name`; a resource that does not
satisfy the `Service` interface fails with `UnimplementedInterface` naming
its concrete kind; otherwise the service is returned. -/
def FromRobot (r : Robot) (name : String) : Except VisErr RobotResource :=
  match resourceByName r (Named name) with
  | none => .error (.resourceNotFound (Named name))
  | some res =>
    match res with
    | .visionSvc s => .ok (.visionSvc s)
    | .reconfVision w => .ok (.reconfVision w)
    | .other k => .error (.unimplementedInterface k)

/-! ## Association-list lemmas for the registry embedding -/

theorem lookupModel_eraseModel_ne (k k' : String) (h : k' ≠ k) :
    ∀ mm : modelMap, lookupModel (eraseModel mm k) k' = lookupModel mm k'
  | [] => rfl
  | (k0, m0) :: rest => by
    by_cases h0 : k0 = k
    · have hk0 : ¬(k0 = k') := by
        rw [h0]
        exact fun he => h he.symm
      simp only [eraseModel, if_pos h0, lookupModel, if_neg hk0]
    · simp only [eraseModel, if_neg h0, lookupModel]
      by_cases h1 : k0 = k'
      · simp [if_pos h1]
      · simp only [if_neg h1]
        exact lookupModel_eraseModel_ne k k' h rest

theorem modelNames_eraseModel_sublist (k : String) :
    ∀ mm : modelMap, List.Sublist (modelNames (eraseModel mm k)) (modelNames mm)
  | [] => List.Sublist.refl _
  | (k0, m0) :: rest => by
    by_cases h0 : k0 = k
    · simp only [eraseModel, if_pos h0, modelNames, List.map_cons]
      exact List.sublist_cons_self _ _
    · simp only [eraseModel, if_neg h0, modelNames, List.map_cons]
      exact (modelNames_eraseModel_sublist k rest).cons₂ k0

theorem not_mem_modelNames_eraseModel (k : String) :
    ∀ mm : modelMap, (modelNames mm).Nodup → k ∉ modelNames (eraseModel mm k)
  | [], _ => by simp [eraseModel, modelNames]
  | (k0, m0) :: rest, hnd => by
    simp only [modelNames, List.map_cons, List.nodup_cons] at hnd
    by_cases h0 : k0 = k
    · subst h0
      simpa [eraseModel, modelNames] using hnd.1
    · simp only [eraseModel, if_neg h0, modelNames, List.map_cons, List.mem_cons]
      push_neg
      exact ⟨fun hk => h0 hk.symm, not_mem_modelNames_eraseModel k rest hnd.2⟩

theorem not_mem_of_not_mem_modelNames_eraseModel {k k' : String} {mm : modelMap}
    (h : k ∉ modelNames mm) : k ∉ modelNames (eraseModel mm k') :=
  fun hmem => h ((modelNames_eraseModel_sublist k' mm).subset hmem)

theorem nodup_modelNames_eraseModel {mm : modelMap} (k : String)
    (h : (modelNames mm).Nodup) : (modelNames (eraseModel mm k)).Nodup :=
  h.sublist (modelNames_eraseModel_sublist k mm)

theorem mem_modelNames_insertModel (n : String) (m : registeredModel) :
    ∀ mm : modelMap, n ∈ modelNames (insertModel mm n m)
  | [] => by simp [insertModel, modelNames]
  | (k0, m0) :: rest => by
    by_cases h0 : k0 = n
    · simp [insertModel, if_pos h0, modelNames]
    · simp only [insertModel, if_neg h0, modelNames, List.map_cons, List.mem_cons]
      exact .inr (mem_modelNames_insertModel n m rest)

theorem mem_insertModel (n : String) (m : registeredModel) :
    ∀ mm : modelMap, (n, m) ∈ insertModel mm n m
  | [] => by simp [insertModel]
  | (k0, m0) :: rest => by
    by_cases h0 : k0 = n
    · simp [insertModel, if_pos h0]
    · simp only [insertModel, if_neg h0, List.mem_cons]
      exact .inr (mem_insertModel n m rest)

theorem mem_SegmenterNames_of_mem {mm : modelMap} {n : String} {m : registeredModel}
    (hmem : (n, m) ∈ mm) (hk : m.kind = VisModelKind.segmenter) :
    n ∈ SegmenterNames mm := by
  simp only [SegmenterNames, List.mem_map]
  exact ⟨(n, m), List.mem_filter.2 ⟨hmem, by simp [hk]⟩, rfl⟩

theorem self_ne_append_segmenter (d : String) : d ≠ d ++ "_segmenter" := by
  intro h
  have hlen := congrArg String.length h
  rw [String.length_append] at hlen
  have : "_segmenter".length = 10 := by decide
  omega

/-! ## C10: WrapWithReconfigurable is idempotent -/

/-- C10: `WrapWithReconfigurable` returns an already-wrapped shim unchanged
rather than wrapping it a second time, and fails with
`UnimplementedInterface` on any value that does not satisfy the `Service`
interface. -/
theorem wrapWithReconfigurable_idempotent :
    (∀ w : reconfigurableVision, WrapWithReconfigurable (.reconf w) = .ok w) ∧
    (∀ k : String, WrapWithReconfigurable (.nonService k) = .error (.unimplementedInterface k)) :=
  ⟨fun _ => rfl, fun _ => rfl⟩

/-! ## C7: resolving a vision service from the robot -/

/-- C7: `FromRobot` fails with `NotFound` when no resource of the given
name exists, fails with `UnimplementedInterface` naming the resolved
object's concrete kind when the resource does not satisfy the vision
`Service` interface, and otherwise returns the resolved service. -/
theorem fromRobot_resolution :
    ∀ (r : Robot) (name : String),
      (resourceByName r (Named name) = none →
        FromRobot r name = .error (.resourceNotFound (Named name))) ∧
      (∀ k, resourceByName r (Named name) = some (.other k) →
        FromRobot r name = .error (.unimplementedInterface k)) ∧
      (∀ s, resourceByName r (Named name) = some (.visionSvc s) →
        FromRobot r name = .ok (.visionSvc s)) ∧
      (∀ w, resourceByName r (Named name) = some (.reconfVision w) →
        FromRobot r name = .ok (.reconfVision w)) := by
  intro r name
  refine ⟨fun h => ?_, fun k h => ?_, fun s h => ?_, fun w h => ?_⟩ <;>
    simp [FromRobot, h]

/-- A concrete resource set exercising `fromRobot_resolution`. -/
def robot0 : Robot :=
  [(Named "v", .visionSvc ⟨[]⟩), (Named "x", .other "motor")]

/-- Witness for C7 at a concrete resource set. -/
theorem fromRobot_resolution_witness :
    FromRobot robot0 "v" = .ok (.visionSvc ⟨[]⟩) ∧
    FromRobot robot0 "x" = .error (.unimplementedInterface "motor") ∧
    FromRobot robot0 "missing" = .error (.resourceNotFound (Named "missing")) :=
  ⟨(fromRobot_resolution robot0 "v").2.2.1 _ rfl,
   (fromRobot_resolution robot0 "x").2.1 _ rfl,
   (fromRobot_resolution robot0 "missing").1 rfl⟩

/-! ## C9: model parameter schema lookup -/

/-- C9: over a parameter-schema table without nil entries (the spec's table
maps registered type-tags to schemas), `GetModelParameterSchema` returns
the schema of a registered type-tag and fails with an error naming the
missing type-tag when it is not registered. -/
theorem getModelParameterSchema_spec :
    ∀ (table : SchemaTable) (t : VisModelType),
      (∀ x, table x ≠ some none) →
      (table t ≠ none → ∃ s, table t = some (some s) ∧
        GetModelParameterSchema table t = .ok s) ∧
      (table t = none →
        GetModelParameterSchema table t = .error (.schemaNotFound t)) := by
  intro table t hnn
  constructor
  · intro hne
    cases h : table t with
    | none => exact absurd h hne
    | some o =>
      cases o with
      | none => exact absurd h (hnn t)
      | some s => exact ⟨s, rfl, by simp [GetModelParameterSchema, h]⟩
  · intro h
    simp [GetModelParameterSchema, h]

/-- A concrete schema table exercising `getModelParameterSchema_spec`. -/
def table0 : SchemaTable :=
  fun t => if t = "color_detector" then some (some ⟨"color_detector_config"⟩) else none

theorem table0_no_nil : ∀ x, table0 x ≠ some none := by
  intro x
  simp only [table0]
  split <;> simp

/-- Witness for C9 at a concrete schema table. -/
theorem getModelParameterSchema_spec_witness :
    (∃ s, table0 "color_detector" = some (some s) ∧
      GetModelParameterSchema table0 "color_detector" = .ok s) ∧
    GetModelParameterSchema table0 "bogus_type" = .error (.schemaNotFound "bogus_type") :=
  ⟨(getModelParameterSchema_spec table0 "color_detector" table0_no_nil).1 (by decide),
   (getModelParameterSchema_spec table0 "bogus_type" table0_no_nil).2 rfl⟩

/-! ## C3: Reconfigure on the shim -/

/-- C3: `Reconfigure` fails with the type-mismatch error on an argument of a
different shim kind, leaving the current actual in place; otherwise it
installs the new actual and returns success, and a failure while closing
the old actual is never returned to the caller. -/
theorem reconfigure_swap_spec :
    ∀ (svc : reconfigurableVision),
      (∀ k, Reconfigure svc (.other k) = (svc, some (.typeMismatch k))) ∧
      (∀ rSvc, Reconfigure svc (.vision rSvc) = (⟨rSvc.actual⟩, none)) ∧
      (∀ rSvc e, (Close svc.actual.modReg).2 = some e →
        (Reconfigure svc (.vision rSvc)).2 = none) :=
  fun _ => ⟨fun _ => rfl, fun _ => rfl, fun _ _ _ => rfl⟩

/-- A model whose release hook fails, so closing the owning service fails. -/
def badCloseModel : registeredModel :=
  ⟨.detector, [], none, some (.closeFailure "engine busy")⟩

/-- A shim whose actual service fails to close. -/
def svcBadClose : reconfigurableVision :=
  ⟨⟨[("d", badCloseModel)]⟩⟩

/-- Witness for C3: closing the old actual fails, yet `Reconfigure`
succeeds. -/
theorem reconfigure_swap_spec_witness :
    (Close svcBadClose.actual.modReg).2 = some (.closeFailure "engine busy") ∧
    (Reconfigure svcBadClose (.vision ⟨⟨[]⟩⟩)).2 = none :=
  ⟨rfl, (reconfigure_swap_spec svcBadClose).2.2 ⟨⟨[]⟩⟩ _ rfl⟩

/-! ## C1: the shim's RemoveClassifier delegates to the wrong operation -/

/-- A classifier registered under name `"c"`. -/
def clsModelC1 : registeredModel :=
  ⟨.classifier, [], some (fun _ => .ok []), none⟩

/-- A segmenter registered under name `"c_segmenter"`. -/
def segModelC1 : registeredModel :=
  ⟨.segmenter, [], none, none⟩

/-- A registry holding the classifier `"c"` and the segmenter
`"c_segmenter"`. -/
def c1Registry : modelMap :=
  [("c", clsModelC1), ("c_segmenter", segModelC1)]

/-- C1 failing input: the shim's `RemoveClassifier` (source line 466, which
delegates to `actual.RemoveDetector`) called on `"c"` also removes the
segmenter `"c_segmenter"`, while the wrapped service's own
`RemoveClassifier` — the same-named operation — leaves that segmenter
registered.  Delegation is therefore not name-preserving. -/
theorem reconfigurableRemoveClassifier_not_same_name :
    (reconfigurableRemoveClassifier ⟨⟨c1Registry⟩⟩ "c").1.actual.modReg = [] ∧
    (RemoveClassifier c1Registry "c").1 = [("c_segmenter", segModelC1)] ∧
    SegmenterNames (reconfigurableRemoveClassifier ⟨⟨c1Registry⟩⟩ "c").1.actual.modReg = [] ∧
    SegmenterNames (RemoveClassifier c1Registry "c").1 = ["c_segmenter"] :=
  ⟨rfl, rfl, rfl, rfl⟩

/-! ## C2: RemoveDetector cascades to the derived segmenter -/

/-- C2: on a registry with distinct names, removing a present, removable
detector succeeds, removes the detector, and removes the derived segmenter
`d ++ "_segmenter"` when it is present (and removable); when the derived
segmenter is absent the removal still succeeds without error. -/
theorem removeDetector_cascade :
    ∀ (mm : modelMap) (d : String) (m : registeredModel),
      (modelNames mm).Nodup →
      lookupModel mm d = some m →
      m.closeErr = none →
      (∀ ms, lookupModel mm (d ++ "_segmenter") = some ms → ms.closeErr = none →
        (RemoveDetector mm d).2 = none ∧
        d ∉ modelNames (RemoveDetector mm d).1 ∧
        (d ++ "_segmenter") ∉ modelNames (RemoveDetector mm d).1) ∧
      (lookupModel mm (d ++ "_segmenter") = none →
        (RemoveDetector mm d).2 = none ∧
        d ∉ modelNames (RemoveDetector mm d).1) := by
  intro mm d m hnd hld hce
  have hstep1 : removeVisModel mm d = (eraseModel mm d, none) := by
    simp [removeVisModel, hld, hce]
  have hne : (d ++ "_segmenter") ≠ d := fun he => self_ne_append_segmenter d he.symm
  have hlook : lookupModel (eraseModel mm d) (d ++ "_segmenter") =
      lookupModel mm (d ++ "_segmenter") :=
    lookupModel_eraseModel_ne d (d ++ "_segmenter") hne mm
  constructor
  · intro ms hlms hcms
    have hr : RemoveDetector mm d =
        (eraseModel (eraseModel mm d) (d ++ "_segmenter"), none) := by
      simp [RemoveDetector, RemoveSegmenter, removeVisModel, hld, hce, hlook, hlms, hcms]
    refine ⟨by rw [hr], ?_, ?_⟩
    · rw [hr]
      exact not_mem_of_not_mem_modelNames_eraseModel
        (not_mem_modelNames_eraseModel d mm hnd)
    · rw [hr]
      exact not_mem_modelNames_eraseModel _ _ (nodup_modelNames_eraseModel d hnd)
  · intro habs
    have hr : RemoveDetector mm d = (eraseModel mm d, none) := by
      simp [RemoveDetector, RemoveSegmenter, removeVisModel, hld, hce, hlook, habs]
    refine ⟨by rw [hr], ?_⟩
    rw [hr]
    exact not_mem_modelNames_eraseModel d mm hnd

/-- A detector registered under name `"d1"`. -/
def detModelC2 : registeredModel :=
  ⟨.detector, [], none, none⟩

/-- The derived segmenter registered under name `"d1_segmenter"`. -/
def segModelC2 : registeredModel :=
  ⟨.segmenter, [], none, none⟩

/-- A registry holding the detector and its derived segmenter. -/
def mmC2 : modelMap :=
  [("d1", detModelC2), ("d1_segmenter", segModelC2)]

/-- Witness for C2: removing `"d1"` also removes `"d1_segmenter"`. -/
theorem removeDetector_cascade_witness :
    (RemoveDetector mmC2 "d1").2 = none ∧
    "d1" ∉ modelNames (RemoveDetector mmC2 "d1").1 ∧
    ("d1" ++ "_segmenter") ∉ modelNames (RemoveDetector mmC2 "d1").1 :=
  (removeDetector_cascade mmC2 "d1" detModelC2 (by decide) rfl rfl).1 segModelC2 rfl rfl

/-! ## C4: AddDetector registers a companion segmenter -/

theorem detectorSegmenterConfig_type (x : String) :
    (detectorSegmenterConfig x).type = DetectorSegmenter := rfl

theorem detectorSegmenterConfig_name (x : String) :
    (detectorSegmenterConfig x).name = x ++ "_segmenter" := rfl

/-- C4: over factories whose `DetectorSegmenter` builds are segmenter-kind
models, a successful `AddDetector` leaves the companion
`cfg.name ++ "_segmenter"` in the segmenter name list; and when the
secondary segmenter add fails, `AddDetector` returns that failure while
the detector remains registered. -/
theorem addDetector_segmenter_pair :
    ∀ (fac : ModelFactories) (mm : modelMap) (cfg : VisModelConfig),
      (∀ build c m, fac DetectorSegmenter = some build → build c = .ok m →
        m.kind = VisModelKind.segmenter) →
      (∀ mm', AddDetector fac mm cfg = (mm', none) →
        (cfg.name ++ "_segmenter") ∈ SegmenterNames mm') ∧
      (∀ mm1 mm2 e, registerNewVisModels fac mm ⟨[cfg]⟩ = (mm1, none) →
        AddSegmenter fac mm1 (detectorSegmenterConfig cfg.name) = (mm2, some e) →
        AddDetector fac mm cfg = (mm2, some e) ∧ cfg.name ∈ modelNames mm2) := by
  intro fac mm cfg hwf
  constructor
  · intro mm' hok
    cases hreg : registerNewVisModels fac mm ⟨[cfg]⟩ with
    | mk mm1 err1 =>
      cases err1 with
      | some e => simp [AddDetector, hreg] at hok
      | none =>
        have hseg : AddSegmenter fac mm1 (detectorSegmenterConfig cfg.name) = (mm', none) := by
          simpa [AddDetector, hreg] using hok
        rw [AddSegmenter, registerNewVisModels] at hseg
        simp only [registerVisModelsLoop, detectorSegmenterConfig_type] at hseg
        cases hfac : fac DetectorSegmenter with
        | none => simp [hfac] at hseg
        | some build =>
          simp only [hfac] at hseg
          cases hbuild : build (detectorSegmenterConfig cfg.name) with
          | error e => simp [hbuild] at hseg
          | ok msg =>
            simp only [hbuild, registerVisModelsLoop, Prod.mk.injEq] at hseg
            rw [← hseg.1, detectorSegmenterConfig_name]
            exact mem_SegmenterNames_of_mem
              (mem_insertModel _ _ _) (hwf build _ msg hfac hbuild)
  · intro mm1 mm2 e hreg hsegfail
    have hmain : AddDetector fac mm cfg = (mm2, some e) := by
      simp [AddDetector, hreg, hsegfail]
    refine ⟨hmain, ?_⟩
    have hmm2 : mm2 = mm1 := by
      rw [AddSegmenter, registerNewVisModels] at hsegfail
      simp only [registerVisModelsLoop, detectorSegmenterConfig_type] at hsegfail
      cases hfac : fac DetectorSegmenter with
      | none =>
        simp only [hfac, Prod.mk.injEq] at hsegfail
        exact hsegfail.1.symm
      | some build =>
        simp only [hfac] at hsegfail
        cases hbuild : build (detectorSegmenterConfig cfg.name) with
        | error e2 =>
          simp only [hbuild, Prod.mk.injEq] at hsegfail
          exact hsegfail.1.symm
        | ok msg => simp [hbuild, registerVisModelsLoop] at hsegfail
    subst hmm2
    rw [registerNewVisModels] at hreg
    simp only [registerVisModelsLoop] at hreg
    cases hfac : fac cfg.type with
    | none => simp [hfac] at hreg
    | some build =>
      simp only [hfac] at hreg
      cases hbuild : build cfg with
      | error e2 => simp [hbuild] at hreg
      | ok mdet =>
        simp only [hbuild, registerVisModelsLoop, Prod.mk.injEq] at hreg
        rw [← hreg.1]
        exact mem_modelNames_insertModel _ _ _

/-- A concrete factory table: a detector tag and the companion segmenter
tag. -/
def facC4 : ModelFactories := fun t =>
  if t = "color_detector" then
    some (fun c => .ok ⟨.detector, c.parameters, none, none⟩)
  else if t = DetectorSegmenter then
    some (fun c => .ok ⟨.segmenter, c.parameters, none, none⟩)
  else none

theorem facC4_wf : ∀ build c m, facC4 DetectorSegmenter = some build →
    build c = .ok m → m.kind = VisModelKind.segmenter := by
  intro build c m hb hc
  have hb' : some (fun c : VisModelConfig =>
      (Except.ok ⟨.segmenter, c.parameters, none, none⟩ : Except VisErr registeredModel)) =
      some build := hb
  injection hb' with hb2
  rw [← hb2] at hc
  injection hc with hc2
  rw [← hc2]

/-- Witness for C4: a successful `AddDetector` on the concrete factory
leaves `"d1_segmenter"` among the segmenter names. -/
theorem addDetector_segmenter_pair_witness :
    ("d1" ++ "_segmenter") ∈ SegmenterNames
      [("d1", (⟨.detector, [], none, none⟩ : registeredModel)),
       ("d1_segmenter",
        (⟨.segmenter,
          [("detector_name", AttrValue.str "d1"), ("mean_k", AttrValue.int 0),
           ("sigma", AttrValue.float 0)], none, none⟩ : registeredModel))] :=
  (addDetector_segmenter_pair facC4 [] ⟨"d1", "color_detector", []⟩ facC4_wf).1 _ rfl

/-! ## C5: Close removes every model, stopping at the first failure -/

theorem closeLoop_all_ok :
    ∀ mm : modelMap, (∀ p ∈ mm, p.2.closeErr = none) →
      closeLoop mm (modelNames mm) = ([], none)
  | [], _ => rfl
  | (k, m) :: rest, h => by
    have hm : m.closeErr = none := h (k, m) (List.mem_cons_self _ _)
    have hrm : removeVisModel ((k, m) :: rest) k = (rest, none) := by
      simp [removeVisModel, lookupModel, eraseModel, hm]
    simp only [modelNames, List.map_cons]
    simp only [closeLoop, hrm]
    exact closeLoop_all_ok rest (fun p hp => h p (List.mem_cons_of_mem _ hp))

theorem closeLoop_stops_at_failure :
    ∀ (pre : modelMap) (n : String) (m : registeredModel) (e : VisErr) (post : modelMap),
      (∀ p ∈ pre, p.2.closeErr = none) → m.closeErr = some e →
      closeLoop (pre ++ (n, m) :: post) (modelNames (pre ++ (n, m) :: post)) =
        ((n, m) :: post, some e)
  | [], n, m, e, post, _, hm => by
    simp only [List.nil_append, modelNames, List.map_cons]
    simp [closeLoop, removeVisModel, lookupModel, hm]
  | (k, m0) :: pre, n, m, e, post, hpre, hm => by
    have hk : m0.closeErr = none := hpre (k, m0) (List.mem_cons_self _ _)
    have hrm : removeVisModel (((k, m0) :: pre) ++ (n, m) :: post) k =
        (pre ++ (n, m) :: post, none) := by
      simp [removeVisModel, lookupModel, eraseModel, hk]
    simp only [List.cons_append, modelNames, List.map_cons]
    rw [show ((k, m0) :: (pre ++ (n, m) :: post) : modelMap) =
      ((k, m0) :: pre) ++ (n, m) :: post from rfl] at *
    simp only [closeLoop, hrm]
    exact closeLoop_stops_at_failure pre n m e post
      (fun p hp => hpre p (List.mem_cons_of_mem _ hp)) hm

/-- C5: `Close` iterates over all registered models removing each.  When
every removal succeeds the registry — hence each of the detector,
classifier, and segmenter name lists — is empty afterwards.  When a removal
fails, the loop stops there, the error is returned, and the failing model
together with every model not yet processed remains registered. -/
theorem close_teardown :
    ∀ mm : modelMap,
      ((∀ p ∈ mm, p.2.closeErr = none) →
        Close mm = ([], none) ∧
        DetectorNames (Close mm).1 = [] ∧
        ClassifierNames (Close mm).1 = [] ∧
        SegmenterNames (Close mm).1 = []) ∧
      (∀ (pre : modelMap) (n : String) (m : registeredModel) (e : VisErr) (post : modelMap),
        mm = pre ++ (n, m) :: post →
        (∀ p ∈ pre, p.2.closeErr = none) →
        m.closeErr = some e →
        Close mm = ((n, m) :: post, some e)) := by
  intro mm
  constructor
  · intro h
    have h1 : Close mm = ([], none) := closeLoop_all_ok mm h
    refine ⟨h1, ?_, ?_, ?_⟩ <;> rw [h1] <;> rfl
  · intro pre n m e post hsplit hpre hm
    subst hsplit
    exact closeLoop_stops_at_failure pre n m e post hpre hm

/-- A registry of three models of mixed kinds, all removable. -/
def mmC5 : modelMap :=
  [("d", ⟨.detector, [], none, none⟩),
   ("c", ⟨.classifier, [], none, none⟩),
   ("s", ⟨.segmenter, [], none, none⟩)]

/-- Witness for C5: closing a registry of three mixed-kind models empties
every name list. -/
theorem close_teardown_witness :
    Close mmC5 = ([], none) ∧
    DetectorNames (Close mmC5).1 = [] ∧
    ClassifierNames (Close mmC5).1 = [] ∧
    SegmenterNames (Close mmC5).1 = [] :=
  (close_teardown mmC5).1 (by decide)

/-! ## C6: GetClassifications returns the top-n reduction -/

/-- C6: when the named model is a classifier whose run on the image yields
the full output `full`, `GetClassifications` returns exactly
`min n full.length` entries, ordered by non-increasing confidence, each
drawn from the full output — and `GetClassificationsFromCamera` returns the
same result when the camera resolves and yields that image. -/
theorem getClassifications_topn :
    ∀ (mm : modelMap) (img : Image) (name : String) (n : Nat)
      (c : registeredModel) (f : Image → Except VisErr Classifications)
      (full : Classifications),
      lookupModel mm name = some c →
      c.classify = some f →
      f img = .ok full →
      ∃ res : Classifications,
        GetClassifications mm img name n = .ok res ∧
        res.length = min n full.length ∧
        List.Sorted byScoreDesc res ∧
        (∀ x ∈ res, x ∈ full) ∧
        (∀ (cams : Cameras) (camName : String) (cam : CameraModel),
          cams camName = some cam → cam.readImage = .ok img →
          GetClassificationsFromCamera cams mm camName name n = .ok res) := by
  intro mm img name n c f full hlc hcf hfi
  refine ⟨(full.insertionSort byScoreDesc).take n, ?_, ?_, ?_, ?_, ?_⟩
  · simp [GetClassifications, modelLookup, hlc, registeredModel.toClassifier, hcf, hfi, TopN]
  · rw [List.length_take, List.length_insertionSort]
  · exact List.Pairwise.sublist (List.take_sublist n _)
      (List.sorted_insertionSort byScoreDesc full)
  · intro x hx
    have hmem : x ∈ full.insertionSort byScoreDesc := (List.take_sublist n _).subset hx
    rwa [List.mem_insertionSort] at hmem
  · intro cams camName cam hcam hri
    simp [GetClassificationsFromCamera, cameraFromRobot, hcam, modelLookup, hlc,
      registeredModel.toClassifier, hcf, hri, hfi, TopN]

/-- A concrete full classifier output with four candidate labels. -/
def fullC6 : Classifications :=
  [⟨"cat", 1/2⟩, ⟨"dog", 9/10⟩, ⟨"bird", 1/10⟩, ⟨"fish", 3/4⟩]

/-- A concrete classifier returning `fullC6` on every image. -/
def clsFunC6 : Image → Except VisErr Classifications :=
  fun _ => .ok fullC6

/-- The registered classifier model for the C6 witness. -/
def clsModelC6 : registeredModel :=
  ⟨.classifier, [], some clsFunC6, none⟩

/-- A registry holding the concrete classifier under name `"cls"`. -/
def mmC6 : modelMap :=
  [("cls", clsModelC6)]

/-- Witness for C6: classifying with bound 2 over four candidates. -/
theorem getClassifications_topn_witness :
    ∃ res : Classifications,
      GetClassifications mmC6 0 "cls" 2 = .ok res ∧
      res.length = min 2 fullC6.length ∧
      List.Sorted byScoreDesc res ∧
      (∀ x ∈ res, x ∈ fullC6) ∧
      (∀ (cams : Cameras) (camName : String) (cam : CameraModel),
        cams camName = some cam → cam.readImage = .ok 0 →
        GetClassificationsFromCamera cams mmC6 camName "cls" 2 = .ok res) :=
  getClassifications_topn mmC6 0 "cls" 2 clsModelC6 clsFunC6 fullC6 rfl rfl rfl

/-! ## C8: interleaving model of the shim's reader/writer lock

Modelled from the spec and the source's lock discipline: every delegated
operation runs between `RLock` and `RUnlock` and dereferences `svc.actual`
(source lines 414-418 and the thirteen analogous methods); `Reconfigure`
runs between `Lock` and `Unlock` and swaps `svc.actual` (source lines
519-536).  `sync.RWMutex` semantics (library code, not in the source
sample): a read lock is acquired only while no writer holds the lock, and
the write lock only while no reader is inside its critical section.  A
reader observes `actual` twice during its critical section — the claim's
"entirely old or entirely new for its full duration" is the agreement of
the two observations. -/

/-- Program counter of one delegated read. -/
inductive RPc where
  | idle
  | locked
  | readFirst
  | finished
deriving DecidableEq

/-- One reader: its program counter and its two observations of `actual`. -/
structure RSt where
  pc : RPc
  o1 : Nat
  o2 : Nat
deriving DecidableEq

/-- Program counter of the single `Reconfigure` writer. -/
inductive WPc where
  | idle
  | locked
  | swapped
  | finished
deriving DecidableEq

/-- Whether a reader is inside its read-locked critical section. -/
def RPc.inCS : RPc → Bool
  | .locked => true
  | .readFirst => true
  | _ => false

/-- Whether the writer holds the write lock. -/
def WPc.holds : WPc → Bool
  | .locked => true
  | .swapped => true
  | _ => false

/-- A configuration: the shim's `actual` reference (abstracted to a value),
`n` concurrent delegated readers, and the single reconfigure writer. -/
structure ShimCfg (n : Nat) where
  actual : Nat
  readers : Fin n → RSt
  wpc : WPc

/-- The initial configuration: `actual` is the old instance `a0`, every
reader idle, the writer idle. -/
def shimInit (n a0 : Nat) : ShimCfg n :=
  ⟨a0, fun _ => ⟨RPc.idle, 0, 0⟩, WPc.idle⟩

/-- One interleaving step.  `a1` is the new instance the writer installs.
Reader steps: acquire the read lock (only while no writer holds the lock),
observe `actual`, observe `actual` again and release.  Writer steps:
acquire the write lock (only while no reader is in its critical section),
swap `actual` to `a1`, release. -/
inductive ShimStep (a1 : Nat) : ShimCfg n → ShimCfg n → Prop where
  | rLock (c : ShimCfg n) (i : Fin n)
      (h : (c.readers i).pc = RPc.idle) (hw : c.wpc.holds = false) :
      ShimStep a1 c
        { c with readers := Function.update c.readers i ⟨RPc.locked, (c.readers i).o1, (c.readers i).o2⟩ }
  | rRead1 (c : ShimCfg n) (i : Fin n) (h : (c.readers i).pc = RPc.locked) :
      ShimStep a1 c
        { c with readers := Function.update c.readers i ⟨RPc.readFirst, c.actual, (c.readers i).o2⟩ }
  | rRead2Unlock (c : ShimCfg n) (i : Fin n) (h : (c.readers i).pc = RPc.readFirst) :
      ShimStep a1 c
        { c with readers := Function.update c.readers i ⟨RPc.finished, (c.readers i).o1, c.actual⟩ }
  | wLock (c : ShimCfg n) (hw : c.wpc = WPc.idle)
      (hr : ∀ j : Fin n, (c.readers j).pc.inCS = false) :
      ShimStep a1 c { c with wpc := WPc.locked }
  | wSwap (c : ShimCfg n) (hw : c.wpc = WPc.locked) :
      ShimStep a1 c { c with actual := a1, wpc := WPc.swapped }
  | wUnlock (c : ShimCfg n) (hw : c.wpc = WPc.swapped) :
      ShimStep a1 c { c with wpc := WPc.finished }

/-- Configurations reachable from the initial one by interleaved steps. -/
def ShimReachable (n a0 a1 : Nat) (c : ShimCfg n) : Prop :=
  Relation.ReflTransGen (ShimStep a1) (shimInit n a0) c

/-- The inductive invariant: writer exclusion, the value of `actual` per
writer phase, the first observation of an in-section reader matches the
current `actual`, and finished readers hold two equal observations of
either the old or the new instance. -/
def ShimInv (a0 a1 : Nat) (c : ShimCfg n) : Prop :=
  (c.wpc.holds = true → ∀ i, (c.readers i).pc.inCS = false) ∧
  ((c.wpc = WPc.idle ∨ c.wpc = WPc.locked) → c.actual = a0) ∧
  ((c.wpc = WPc.swapped ∨ c.wpc = WPc.finished) → c.actual = a1) ∧
  (∀ i, (c.readers i).pc = RPc.readFirst → (c.readers i).o1 = c.actual) ∧
  (∀ i, (c.readers i).pc = RPc.finished →
    (c.readers i).o1 = (c.readers i).o2 ∧
    ((c.readers i).o1 = a0 ∨ (c.readers i).o1 = a1))

theorem shimInv_init (n a0 a1 : Nat) : ShimInv a0 a1 (shimInit n a0) := by
  refine ⟨?_, fun _ => rfl, ?_, ?_, ?_⟩
  · intro h
    simp [shimInit, WPc.holds] at h
  · intro h
    rcases h with h | h <;> simp [shimInit] at h
  · intro i h
    simp [shimInit] at h
  · intro i h
    simp [shimInit] at h

theorem shimInv_step {n a0 a1 : Nat} {c c' : ShimCfg n}
    (hinv : ShimInv a0 a1 c) (hstep : ShimStep a1 c c') : ShimInv a0 a1 c' := by
  obtain ⟨hmx, hold, hnew, hcur, hfin⟩ := hinv
  cases hstep with
  | rLock i hidle hw =>
    refine ⟨?_, hold, hnew, ?_, ?_⟩
    · intro hh
      rw [show ({ c with readers := Function.update c.readers i ⟨RPc.locked, (c.readers i).o1, (c.readers i).o2⟩ } : ShimCfg n).wpc = c.wpc from rfl] at hh
      rw [hw] at hh
      exact absurd hh (by simp)
    · intro j hj
      by_cases hji : j = i
      · subst hji
        simp only [Function.update_same] at hj
        simp at hj
      · simp only [Function.update_noteq hji] at hj ⊢
        exact hcur j hj
    · intro j hj
      by_cases hji : j = i
      · subst hji
        simp only [Function.update_same] at hj
        simp at hj
      · simp only [Function.update_noteq hji] at hj ⊢
        exact hfin j hj
  | rRead1 i hlocked =>
    refine ⟨?_, hold, hnew, ?_, ?_⟩
    · intro hh
      have hcontra := hmx hh i
      rw [hlocked] at hcontra
      simp [RPc.inCS] at hcontra
    · intro j hj
      by_cases hji : j = i
      · subst hji
        simp only [Function.update_same]
      · simp only [Function.update_noteq hji] at hj ⊢
        exact hcur j hj
    · intro j hj
      by_cases hji : j = i
      · subst hji
        simp only [Function.update_same] at hj
        simp at hj
      · simp only [Function.update_noteq hji] at hj ⊢
        exact hfin j hj
  | rRead2Unlock i hrf =>
    have hact : c.actual = a0 ∨ c.actual = a1 := by
      cases hwp : c.wpc with
      | idle => exact Or.inl (hold (Or.inl hwp))
      | locked => exact Or.inl (hold (Or.inr hwp))
      | swapped => exact Or.inr (hnew (Or.inl hwp))
      | finished => exact Or.inr (hnew (Or.inr hwp))
    refine ⟨?_, hold, hnew, ?_, ?_⟩
    · intro hh
      have hcontra := hmx hh i
      rw [hrf] at hcontra
      simp [RPc.inCS] at hcontra
    · intro j hj
      by_cases hji : j = i
      · subst hji
        simp only [Function.update_same] at hj
        simp at hj
      · simp only [Function.update_noteq hji] at hj ⊢
        exact hcur j hj
    · intro j hj
      by_cases hji : j = i
      · subst hji
        simp only [Function.update_same] at hj ⊢
        have ho1 : (c.readers j).o1 = c.actual := hcur j hrf
        exact ⟨ho1, by rw [ho1]; exact hact⟩
      · simp only [Function.update_noteq hji] at hj ⊢
        exact hfin j hj
  | wLock hwidle hnocs =>
    refine ⟨fun _ => hnocs, fun _ => hold (Or.inl hwidle), ?_, hcur, hfin⟩
    intro h
    rcases h with h | h <;> exact absurd h (by simp)
  | wSwap hwl =>
    refine ⟨?_, ?_, fun _ => rfl, ?_, hfin⟩
    · intro _ j
      exact hmx (by rw [hwl]; rfl) j
    · intro h
      rcases h with h | h <;> exact absurd h (by simp)
    · intro j hj
      have hcontra := hmx (by rw [hwl]; rfl) j
      rw [hj] at hcontra
      simp [RPc.inCS] at hcontra
  | wUnlock hws =>
    refine ⟨?_, ?_, fun _ => hnew (Or.inl hws), hcur, hfin⟩
    · intro hh
      exact absurd hh (by simp [WPc.holds])
    · intro h
      rcases h with h | h <;> exact absurd h (by simp)


theorem shimInv_reachable {n a0 a1 : Nat} {c : ShimCfg n}
    (h : ShimReachable n a0 a1 c) : ShimInv a0 a1 c := by
  induction h with
  | refl => exact shimInv_init n a0 a1
  | tail _ hstep ih => exact shimInv_step ih hstep

/-- C8: in every interleaving of `n` concurrent delegated reads with one
`Reconfigure`, no read observes a torn `actual`: every completed read
observed one single value — the old instance `a0` or the new instance
`a1` — for its full duration, and while the reconfigure holds the write
lock no read is inside its critical section. -/
theorem shim_reads_not_torn :
    ∀ (n a0 a1 : Nat) (c : ShimCfg n), ShimReachable n a0 a1 c →
      (∀ i, (c.readers i).pc = RPc.finished →
        (c.readers i).o1 = (c.readers i).o2 ∧
        ((c.readers i).o1 = a0 ∨ (c.readers i).o1 = a1)) ∧
      (c.wpc.holds = true → ∀ i, (c.readers i).pc.inCS = false) := by
  intro n a0 a1 c h
  obtain ⟨hmx, _, _, _, hfin⟩ := shimInv_reachable h
  exact ⟨hfin, hmx⟩

/-- The trace: reconfigure (lock, swap, unlock), then one full delegated
read (lock, observe, observe and release). -/
def c8s0 : ShimCfg 1 := shimInit 1 0

def c8s1 : ShimCfg 1 := { c8s0 with wpc := WPc.locked }

def c8s2 : ShimCfg 1 := { c8s1 with actual := 1, wpc := WPc.swapped }

def c8s3 : ShimCfg 1 := { c8s2 with wpc := WPc.finished }

def c8s4 : ShimCfg 1 := { c8s3 with readers := Function.update c8s3.readers 0 ⟨RPc.locked, 0, 0⟩ }

def c8s5 : ShimCfg 1 := { c8s4 with readers := Function.update c8s4.readers 0 ⟨RPc.readFirst, 1, 0⟩ }

/-- The configuration at the end of the trace: the read completed after the
reconfigure and observed the new instance both times. -/
def c8final : ShimCfg 1 := { c8s5 with readers := Function.update c8s5.readers 0 ⟨RPc.finished, 1, 1⟩ }

theorem c8final_reachable : ShimReachable 1 0 1 c8final :=
  Relation.ReflTransGen.tail
    (Relation.ReflTransGen.tail
      (Relation.ReflTransGen.tail
        (Relation.ReflTransGen.tail
          (Relation.ReflTransGen.tail
            (Relation.ReflTransGen.tail Relation.ReflTransGen.refl
              (ShimStep.wLock c8s0 rfl (fun _ => rfl)))
            (ShimStep.wSwap c8s1 rfl))
          (ShimStep.wUnlock c8s2 rfl))
        (ShimStep.rLock c8s3 0 rfl rfl))
      (ShimStep.rRead1 c8s4 0 rfl))
    (ShimStep.rRead2Unlock c8s5 0 rfl)

/-- Witness for C8 at a concrete interleaving: a reconfigure followed by a
complete delegated read. -/
theorem shim_reads_not_torn_witness :
    (∀ i, (c8final.readers i).pc = RPc.finished →
      (c8final.readers i).o1 = (c8final.readers i).o2 ∧
      ((c8final.readers i).o1 = 0 ∨ (c8final.readers i).o1 = 1)) ∧
    (c8final.wpc.holds = true → ∀ i, (c8final.readers i).pc.inCS = false) :=
  shim_reads_not_torn 1 0 1 c8final c8final_reachable

end RDKVision
